import Mathlib

/-!
Verification development for the OOPAO optical-propagation core
(files OOPAO/Telescope.py and OOPAO/ExtendedSource.py).

The Python code is shallowly embedded: machine floats become exact
rationals, numpy integer arrays become functions out of natural numbers,
and methods that can raise become functions into Except or functions
returning an optional error message.  Python floor division by 2 on
nonnegative integers is written with the integer division of this
library, which agrees with it (round toward negative infinity for the
positive divisor 2), and the Python percent operator on integers agrees
with the integer remainder used here (nonnegative for positive modulus).
-/

namespace OOPAO

/-! ## Telescope.PropagateField : focal-plane size and crop arithmetic

Embedding of the pure size computations of Telescope.PropagateField
(Telescope.py, lines 341-429).  The transcendental content of the FFT is
irrelevant to the claims, which concern the resolution check, the padded
size N, the image size and the crop indices; those quantities are exact
integer and rational arithmetic and are reproduced verbatim. -/

/-- Embedding of numpy fix: truncation toward zero. -/
def npFix (q : ℚ) : ℤ := if 0 ≤ q then ⌊q⌋ else ⌈q⌉

/-- Embedding of numpy round: round half to even (banker rounding). -/
def npRound (q : ℚ) : ℤ :=
  let f := ⌊q⌋
  if q - f < 1/2 then f
  else if 1/2 < q - f then f + 1
  else if f % 2 = 0 then f else f + 1

/-- Oversampling integer computed by PropagateField: starts at 1 and is
replaced by ceil(2.0 / zeroPaddingFactor) when
zeroPaddingFactor * oversampling < 2 (Telescope.py lines 343, 355-356). -/
def oversampling (zeroPaddingFactor : ℚ) : ℤ :=
  if zeroPaddingFactor * 1 < 2 then ⌈(2 : ℚ) / zeroPaddingFactor⌉ else 1

/-- Size and crop data computed by Telescope.PropagateField once the
resolution check has passed. -/
structure FocalCrop where
  img_resolution : ℚ
  oversampling : ℤ
  img_size : ℤ
  pad_width : ℤ
  N : ℤ
  shift_pix : ℤ
  ids_lo : ℤ
  ids_hi : ℤ
  cropSide : ℤ
deriving DecidableEq, Repr

/-- Size computations of Telescope.PropagateField (lines 364-419):
img_size = ceil(img_resolution * oversampling),
N = fix(zeroPaddingFactor * oversampling * resolution) before padding,
pad_width = ceil((N - resolution) / 2), N re-read as the padded size
resolution + 2 * pad_width, the odd/even shift_pix, and the crop indices
ids = [ceil(N/2) - img_size//2 + (1 - N%2) - 1, ceil(N/2) + img_size//2
+ shift_pix].  cropSide is the number of rows the Python slice
EMF[ids0:ids1, ids0:ids1] actually keeps (slices clamp to [0, N]). -/
def focalCropOf (resolution : ℕ) (zeroPaddingFactor : ℚ) (imgRes : ℚ) : FocalCrop :=
  let os : ℤ := oversampling zeroPaddingFactor
  let img_size : ℤ := ⌈imgRes * (os : ℚ)⌉
  let N₀ : ℤ := npFix (zeroPaddingFactor * (os : ℚ) * (resolution : ℚ))
  let pad : ℤ := ⌈((N₀ : ℚ) - (resolution : ℚ)) / 2⌉
  let N : ℤ := (resolution : ℤ) + 2 * pad
  let shift : ℤ := if N % 2 = img_size % 2 then 0 else if N % 2 = 0 then 1 else -1
  let lo : ℤ := ⌈(N : ℚ) / 2⌉ - img_size / 2 + (1 - N % 2) - 1
  let hi : ℤ := ⌈(N : ℚ) / 2⌉ + img_size / 2 + shift
  { img_resolution := imgRes
    oversampling := os
    img_size := img_size
    pad_width := pad
    N := N
    shift_pix := shift
    ids_lo := lo
    ids_hi := hi
    cropSide := max 0 (min hi N - max lo 0) }

/-- Error message raised by the resolution check of PropagateField. -/
def resolutionErrMsg : String :=
  "Error: image has too many pixels for this pupil sampling. Try using a pupil mask with more pixels"

/-- Embedding of Telescope.PropagateField (lines 341-429), restricted to
its size bookkeeping: the resolution check raises when a non-None
img_resolution exceeds zeroPaddingFactor * resolution; a None
img_resolution defaults to zeroPaddingFactor * resolution. -/
def PropagateField (resolution : ℕ) (zeroPaddingFactor : ℚ) (img_resolution : Option ℚ) :
    Except String FocalCrop :=
  match img_resolution with
  | some r =>
      if zeroPaddingFactor * (resolution : ℚ) < r then Except.error resolutionErrMsg
      else Except.ok (focalCropOf resolution zeroPaddingFactor r)
  | none => Except.ok (focalCropOf resolution zeroPaddingFactor (zeroPaddingFactor * (resolution : ℚ)))

/-- Helper: ceiling of half an integer, expressed with integer division. -/
theorem ceil_half_int (a : ℤ) : ⌈(a : ℚ) / 2⌉ = (a + 1) / 2 := by
  obtain ⟨q, r, hr, ha⟩ : ∃ q r : ℤ, (r = 0 ∨ r = 1) ∧ a = 2 * q + r :=
    ⟨a / 2, a % 2, by omega, by omega⟩
  subst ha
  rcases hr with rfl | rfl
  · rw [show ((2 * q + 0 : ℤ) : ℚ) / 2 = (q : ℚ) by push_cast; ring, Int.ceil_intCast]
    omega
  · rw [show ((2 * q + 1 : ℤ) : ℚ) / 2 = 1 / 2 + (q : ℚ) by push_cast; ring, Int.ceil_add_int,
      show ⌈(1 : ℚ) / 2⌉ = 1 by norm_num [Int.ceil_eq_iff]]
    omega

/-- Helper: the oversampling integer is at least 1 for a positive
zero-padding factor. -/
theorem oversampling_pos (zpf : ℚ) (h : 0 < zpf) : 1 ≤ oversampling zpf := by
  unfold oversampling
  split
  · exact Int.ceil_pos.mpr (by positivity)
  · exact le_refl 1

/-- Helper: after the oversampling correction, the effective padding
factor is at least 2. -/
theorem oversampling_mul (zpf : ℚ) (h : 0 < zpf) :
    2 ≤ zpf * ((oversampling zpf : ℤ) : ℚ) := by
  unfold oversampling
  split
  case isTrue hlt =>
    have hle : (2 : ℚ) / zpf ≤ ((⌈(2 : ℚ) / zpf⌉ : ℤ) : ℚ) := Int.le_ceil _
    calc (2 : ℚ) = zpf * (2 / zpf) := by field_simp
    _ ≤ zpf * ((⌈(2 : ℚ) / zpf⌉ : ℤ) : ℚ) := by
        exact mul_le_mul_of_nonneg_left hle (le_of_lt h)
  case isFalse hge =>
    push_cast
    linarith [not_lt.mp hge]

/-- C1 amended.  Whenever Telescope.PropagateField passes the
resolution check with an INTEGER requested resolution r (and a positive
zero-padding factor), the cropped focal-plane field is square with
exactly img_size = ceil(img_resolution * oversampling) pixels per side:
the crop indices stay inside the padded N x N array, their difference
is img_size, and the shift applied is 0 when N and img_size share
parity, +1 when N is even and img_size odd, -1 when N is odd and
img_size even.  The integer restriction is necessary: for a fractional
requested resolution the check can pass while img_size exceeds N by
one, and the slice then clamps (see the counterexample below). -/
theorem PropagateField_crop_exact (resolution : ℕ) (zpf : ℚ) (r : ℕ) (s : FocalCrop)
    (hz : 0 < zpf)
    (hok : PropagateField resolution zpf (some (r : ℚ)) = Except.ok s) :
    s.img_size = ⌈(r : ℚ) * ((s.oversampling : ℤ) : ℚ)⌉ ∧
    s.cropSide = s.img_size ∧
    0 ≤ s.ids_lo ∧ s.ids_hi ≤ s.N ∧ s.ids_hi - s.ids_lo = s.img_size ∧
    s.shift_pix = (if s.N % 2 = s.img_size % 2 then 0 else if s.N % 2 = 0 then 1 else -1) := by
  by_cases hnot : zpf * (resolution : ℚ) < (r : ℚ)
  · rw [PropagateField, if_pos hnot] at hok
    exact absurd hok (by simp)
  rw [PropagateField, if_neg hnot] at hok
  have hs : s = focalCropOf resolution zpf (r : ℚ) := by
    injection hok with h
    exact h.symm
  subst hs
  have hr_le : (r : ℚ) ≤ zpf * (resolution : ℚ) := not_lt.mp hnot
  set c := focalCropOf resolution zpf (r : ℚ) with hc
  -- definitional characterisation of the fields
  have e_os : c.oversampling = oversampling zpf := rfl
  have e_img : c.img_size = ⌈(r : ℚ) * ((oversampling zpf : ℤ) : ℚ)⌉ := rfl
  have e_pad : c.pad_width =
      ⌈((npFix (zpf * ((oversampling zpf : ℤ) : ℚ) * (resolution : ℚ)) : ℚ) -
          (resolution : ℚ)) / 2⌉ := rfl
  have e_N : c.N = (resolution : ℤ) + 2 * c.pad_width := rfl
  have e_shift : c.shift_pix =
      (if c.N % 2 = c.img_size % 2 then 0 else if c.N % 2 = 0 then 1 else -1) := rfl
  have e_lo : c.ids_lo = ⌈(c.N : ℚ) / 2⌉ - c.img_size / 2 + (1 - c.N % 2) - 1 := rfl
  have e_hi : c.ids_hi = ⌈(c.N : ℚ) / 2⌉ + c.img_size / 2 + c.shift_pix := rfl
  have e_crop : c.cropSide = max 0 (min c.ids_hi c.N - max c.ids_lo 0) := rfl
  have hos1 : 1 ≤ oversampling zpf := oversampling_pos zpf hz
  have hosmul : 2 ≤ zpf * ((oversampling zpf : ℤ) : ℚ) := oversampling_mul zpf hz
  have hosp : (0 : ℚ) ≤ ((oversampling zpf : ℤ) : ℚ) := by
    exact_mod_cast le_trans zero_le_one hos1
  -- the requested image size is the integer r * oversampling
  have e_img' : c.img_size = (r : ℤ) * oversampling zpf := by
    rw [e_img, show ((r : ℚ) * ((oversampling zpf : ℤ) : ℚ)) =
      (((r : ℤ) * oversampling zpf : ℤ) : ℚ) by push_cast; ring, Int.ceil_intCast]
  have himg_nonneg : 0 ≤ c.img_size := by
    rw [e_img']
    exact mul_nonneg (Int.ofNat_nonneg r) (by omega)
  -- the argument of fix is nonnegative, so fix is floor
  have harg_nonneg : 0 ≤ zpf * ((oversampling zpf : ℤ) : ℚ) * (resolution : ℚ) := by positivity
  have hN₀floor : npFix (zpf * ((oversampling zpf : ℤ) : ℚ) * (resolution : ℚ)) =
      ⌊zpf * ((oversampling zpf : ℤ) : ℚ) * (resolution : ℚ)⌋ := by
    unfold npFix
    rw [if_pos harg_nonneg]
  -- the image size fits inside the pre-padding transform size
  have himg_le_N₀ : c.img_size ≤ npFix (zpf * ((oversampling zpf : ℤ) : ℚ) * (resolution : ℚ)) := by
    rw [hN₀floor, e_img', Int.le_floor]
    calc (((r : ℤ) * oversampling zpf : ℤ) : ℚ)
        = (r : ℚ) * ((oversampling zpf : ℤ) : ℚ) := by push_cast; ring
    _ ≤ zpf * (resolution : ℚ) * ((oversampling zpf : ℤ) : ℚ) :=
        mul_le_mul_of_nonneg_right hr_le hosp
    _ = zpf * ((oversampling zpf : ℤ) : ℚ) * (resolution : ℚ) := by ring
  -- the pre-padding transform size is at least the pupil size
  have hres_le_N₀ : (resolution : ℤ) ≤
      npFix (zpf * ((oversampling zpf : ℤ) : ℚ) * (resolution : ℚ)) := by
    rw [hN₀floor, Int.le_floor]
    have h1 : (1 : ℚ) ≤ zpf * ((oversampling zpf : ℤ) : ℚ) := le_trans one_le_two hosmul
    calc ((resolution : ℤ) : ℚ) = (resolution : ℚ) := by push_cast; ring
    _ ≤ zpf * ((oversampling zpf : ℤ) : ℚ) * (resolution : ℚ) :=
        le_mul_of_one_le_left (by positivity) h1
  -- the padded size dominates the pre-padding size
  have hpad_ge : ((npFix (zpf * ((oversampling zpf : ℤ) : ℚ) * (resolution : ℚ)) : ℤ) : ℚ) -
      (resolution : ℚ) ≤ 2 * ((c.pad_width : ℤ) : ℚ) := by
    rw [e_pad]
    have := Int.le_ceil ((((npFix (zpf * ((oversampling zpf : ℤ) : ℚ) * (resolution : ℚ)) : ℤ) : ℚ) -
      (resolution : ℚ)) / 2)
    linarith
  have hN₀_le_N : npFix (zpf * ((oversampling zpf : ℤ) : ℚ) * (resolution : ℚ)) ≤ c.N := by
    rw [e_N]
    have h2 : ((npFix (zpf * ((oversampling zpf : ℤ) : ℚ) * (resolution : ℚ)) : ℤ) : ℚ) ≤
        ((resolution : ℤ) : ℚ) + 2 * ((c.pad_width : ℤ) : ℚ) := by push_cast; push_cast at hpad_ge; linarith
    exact_mod_cast h2
  have himg_le_N : c.img_size ≤ c.N := le_trans himg_le_N₀ hN₀_le_N
  -- replace the rational ceilings by integer division and finish with omega
  have hceilN : ⌈(c.N : ℚ) / 2⌉ = (c.N + 1) / 2 := ceil_half_int c.N
  refine ⟨?_, ?_, ?_, ?_, ?_, ?_⟩
  · rw [e_os]
    exact e_img
  · rw [e_crop, e_lo, e_hi, e_shift, hceilN]
    split_ifs <;> omega
  · rw [e_lo, hceilN]
    omega
  · rw [e_hi, e_shift, hceilN]
    split_ifs <;> omega
  · rw [e_lo, e_hi, e_shift, hceilN]
    split_ifs <;> omega
  · exact e_shift

/-- Witness for C1 at resolution 2, zero-padding factor 2, requested
resolution 3. -/
theorem PropagateField_crop_exact_witness :
    (focalCropOf 2 2 ((3 : ℕ) : ℚ)).cropSide = (focalCropOf 2 2 ((3 : ℕ) : ℚ)).img_size :=
  (PropagateField_crop_exact 2 2 3 (focalCropOf 2 2 ((3 : ℕ) : ℚ)) (by norm_num)
    (by rw [PropagateField, if_neg (by push_cast; norm_num)])).2.1

/-- Counterexample to C1 as stated.  Fractional requested resolutions
are reachable (computePSF defaults img_resolution to zeroPaddingFactor
times the pupil resolution before calling PropagateField, and the
padding factor may be fractional).  At resolution 4, zeroPaddingFactor
21/8 and img_resolution 21/2 the resolution check passes (21/2 equals
21/8 * 4), yet img_size = ceil(21/2) = 11 while the padded transform
has only N = 10 pixels per side: the crop indices are [0, 11], the
numpy slice clamps to 10 pixels per side, and the cropped field is not
an img_size-wide square. -/
theorem PropagateField_crop_clamps_counterexample :
    PropagateField 4 (21/8) (some (21/2)) = Except.ok (focalCropOf 4 (21/8) (21/2)) ∧
    (focalCropOf 4 (21/8) (21/2)).img_size = 11 ∧
    (focalCropOf 4 (21/8) (21/2)).N = 10 ∧
    (focalCropOf 4 (21/8) (21/2)).cropSide = 10 ∧
    (focalCropOf 4 (21/8) (21/2)).cropSide ≠ (focalCropOf 4 (21/8) (21/2)).img_size := by
  have hos : oversampling (21/8) = 1 := by
    unfold oversampling
    rw [if_neg (by norm_num)]
  have himg : (focalCropOf 4 (21/8) (21/2)).img_size = 11 := by
    have e : (focalCropOf 4 (21/8) (21/2)).img_size =
        ⌈(21/2 : ℚ) * ((oversampling (21/8) : ℤ) : ℚ)⌉ := rfl
    rw [e, hos]
    norm_num [Int.ceil_eq_iff]
  have hfix : npFix ((21/8 : ℚ) * ((oversampling (21/8) : ℤ) : ℚ) * ((4 : ℕ) : ℚ)) = 10 := by
    rw [hos]
    unfold npFix
    rw [if_pos (by norm_num)]
    norm_num [Int.floor_eq_iff]
  have hpad : (focalCropOf 4 (21/8) (21/2)).pad_width = 3 := by
    have e : (focalCropOf 4 (21/8) (21/2)).pad_width =
        ⌈((npFix ((21/8 : ℚ) * ((oversampling (21/8) : ℤ) : ℚ) * ((4 : ℕ) : ℚ)) : ℚ) -
          ((4 : ℕ) : ℚ)) / 2⌉ := rfl
    rw [e, hfix]
    norm_num [Int.ceil_eq_iff]
  have hN : (focalCropOf 4 (21/8) (21/2)).N = 10 := by
    have e : (focalCropOf 4 (21/8) (21/2)).N =
        ((4 : ℕ) : ℤ) + 2 * (focalCropOf 4 (21/8) (21/2)).pad_width := rfl
    rw [e, hpad]
    norm_num
  have hshift : (focalCropOf 4 (21/8) (21/2)).shift_pix = 1 := by
    have e : (focalCropOf 4 (21/8) (21/2)).shift_pix =
        (if (focalCropOf 4 (21/8) (21/2)).N % 2 = (focalCropOf 4 (21/8) (21/2)).img_size % 2
          then 0 else if (focalCropOf 4 (21/8) (21/2)).N % 2 = 0 then 1 else -1) := rfl
    rw [e, hN, himg]
    norm_num
  have hlo : (focalCropOf 4 (21/8) (21/2)).ids_lo = 0 := by
    have e : (focalCropOf 4 (21/8) (21/2)).ids_lo =
        ⌈((focalCropOf 4 (21/8) (21/2)).N : ℚ) / 2⌉ -
          (focalCropOf 4 (21/8) (21/2)).img_size / 2 +
          (1 - (focalCropOf 4 (21/8) (21/2)).N % 2) - 1 := rfl
    rw [e, hN, himg, ceil_half_int]
    decide
  have hhi : (focalCropOf 4 (21/8) (21/2)).ids_hi = 11 := by
    have e : (focalCropOf 4 (21/8) (21/2)).ids_hi =
        ⌈((focalCropOf 4 (21/8) (21/2)).N : ℚ) / 2⌉ +
          (focalCropOf 4 (21/8) (21/2)).img_size / 2 +
          (focalCropOf 4 (21/8) (21/2)).shift_pix := rfl
    rw [e, hN, himg, hshift, ceil_half_int]
    decide
  have hcrop : (focalCropOf 4 (21/8) (21/2)).cropSide = 10 := by
    have e : (focalCropOf 4 (21/8) (21/2)).cropSide =
        max 0 (min (focalCropOf 4 (21/8) (21/2)).ids_hi (focalCropOf 4 (21/8) (21/2)).N -
          max (focalCropOf 4 (21/8) (21/2)).ids_lo 0) := rfl
    rw [e, hhi, hN, hlo]
    decide
  refine ⟨?_, himg, hN, hcrop, ?_⟩
  · rw [PropagateField, if_neg (by push_cast; norm_num)]
  · rw [hcrop, himg]
    decide

/-- C2.  A call to Telescope.PropagateField with a non-None requested
resolution raises exactly when the requested resolution exceeds
zeroPaddingFactor * resolution, and then returns no result at all; with
a None requested resolution it never raises and the output resolution
defaults to zeroPaddingFactor * resolution. -/
theorem PropagateField_resolution_check (resolution : ℕ) (zpf : ℚ) :
    (∀ r : ℚ,
      ((∃ e, PropagateField resolution zpf (some r) = Except.error e) ↔
        zpf * (resolution : ℚ) < r) ∧
      (zpf * (resolution : ℚ) < r →
        ∀ s, PropagateField resolution zpf (some r) ≠ Except.ok s) ∧
      (¬ zpf * (resolution : ℚ) < r →
        PropagateField resolution zpf (some r) = Except.ok (focalCropOf resolution zpf r))) ∧
    PropagateField resolution zpf none =
      Except.ok (focalCropOf resolution zpf (zpf * (resolution : ℚ))) ∧
    (focalCropOf resolution zpf (zpf * (resolution : ℚ))).img_resolution =
      zpf * (resolution : ℚ) := by
  refine ⟨fun r => ⟨⟨?_, ?_⟩, ?_, ?_⟩, rfl, rfl⟩
  · rintro ⟨e, he⟩
    by_contra hnot
    rw [PropagateField, if_neg hnot] at he
    exact absurd he (by simp)
  · intro hlt
    exact ⟨resolutionErrMsg, by rw [PropagateField, if_pos hlt]⟩
  · intro hlt s
    rw [PropagateField, if_pos hlt]
    simp
  · intro hnot
    rw [PropagateField, if_neg hnot]

/-- Witness for C2: at resolution 2, padding factor 2, a requested
resolution of 5 exceeds 2 * 2 = 4 and raises. -/
theorem PropagateField_resolution_check_witness :
    ∃ e, PropagateField 2 2 (some 5) = Except.error e :=
  (((PropagateField_resolution_check 2 2).1 5).1.2 (by norm_num))

/-! ## ExtendedSource.photometry (ExtendedSource.py, lines 171-191)

The method first tests whether the argument is a string; a string is
looked up with hasattr on the local photometry class and any name for
which hasattr is false falls to the first error branch; a non-string
falls to the second error branch.  Both error branches print a message
and return the plain integer -1 instead of raising.  hasattr on a
Python class is true not only for the explicitly defined bands V, R,
IR but also for every attribute the class inherits from object and
type (mro, the dunder names, ...); for those names getattr returns the
inherited attribute object (a method, a string, a mappingproxy, ...),
not a band triple and not -1. -/

/-- A Python argument as the photometry method sees it: either a string
or some non-string value. -/
inductive PyArg where
  | str : String → PyArg
  | nonStr : PyArg
deriving DecidableEq

/-- Result of ExtendedSource.photometry: the triple [wavelength,
bandwidth, zeroPoint] of a defined band, the inherited class attribute
named s that getattr returns when hasattr succeeds through
inheritance, or the sentinel integer -1 of the two error branches. -/
inductive PhotometryResult where
  | phot : ℚ → ℚ → ℚ → PhotometryResult
  | attr : String → PhotometryResult
  | sentinel : PhotometryResult
deriving DecidableEq

/-- Attribute names for which hasattr is true on a plain Python class
through inheritance from object and type (the set CPython 3.11 reports;
the exact set is interpreter-version dependent but always contains
mro and the dunder names used below). -/
def classInheritedAttrs : List String :=
  ["mro", "__base__", "__bases__", "__basicsize__", "__call__", "__class__",
   "__delattr__", "__dict__", "__dictoffset__", "__dir__", "__doc__", "__eq__",
   "__flags__", "__format__", "__ge__", "__getattribute__", "__getstate__",
   "__gt__", "__hash__", "__init__", "__init_subclass__", "__instancecheck__",
   "__itemsize__", "__le__", "__lt__", "__module__", "__mro__", "__name__",
   "__ne__", "__new__", "__qualname__", "__reduce__", "__reduce_ex__",
   "__repr__", "__setattr__", "__sizeof__", "__str__", "__subclasscheck__",
   "__subclasses__", "__subclasshook__", "__weakref__", "__weakrefoffset__"]

/-- Embedding of ExtendedSource.photometry.  The bands carried by the
local class are V = [0.500e-6, 0.0, 3.31e12], R = [0.700e-6, 0.0,
2.25e20] and IR = [1.300e-6, 0.0, 0.5e20]; an inherited attribute name
also passes the hasattr test and getattr returns that attribute; every
other string and every non-string returns the sentinel -1. -/
def photometry (arg : PyArg) : PhotometryResult :=
  match arg with
  | PyArg.str s =>
      if s = "V" then PhotometryResult.phot (5/10000000) 0 3310000000000
      else if s = "R" then PhotometryResult.phot (7/10000000) 0 225000000000000000000
      else if s = "IR" then PhotometryResult.phot (13/10000000) 0 50000000000000000000
      else if s ∈ classInheritedAttrs then PhotometryResult.attr s
      else PhotometryResult.sentinel
  | PyArg.nonStr => PhotometryResult.sentinel

/-- State carried by a successfully constructed ExtendedSource that the
claims consult. -/
structure ExtendedSourceState where
  wavelength : ℚ
  bandwidth : ℚ
  nPhoton : ℚ
  nSubDirs : ℕ
  fov : ℚ
  patch_padding : ℚ
  img_PS : ℚ
  subDir_size : ℚ
  filt_width : ℤ
  subDirPhoton : ℚ
deriving DecidableEq

/-- Message of the BaseException raised by the feasibility check. -/
def tooManyDirsMsg : String := "Too many directions, processing will not be feasible"

/-- Message of the TypeError raised when an invalid band makes
photometry return -1 and the constructor subscripts it. -/
def badBandMsg : String := "TypeError: int object is not subscriptable"

/-- Message of the TypeError raised when the band name is an inherited
class attribute: subscripting the returned method or mappingproxy, or
(for the string-valued attributes, under the default
display_properties=True) printing the properties with a character as
nPhoton, raises before the feasibility check is reached. -/
def attrBandMsg : String := "TypeError: inherited class attribute is not a photometry triple"

/-- Embedding of ExtendedSource.__init__.  File input of the sun image
is kept abstract (a successful load is assumed; its pixels do not enter
any claim).  The sub-direction size is the one computed by get_subDirs
(ExtendedSource.py lines 239-242) and filt_width = round(subDir_size /
img_PS) is the blending-filter width of line 132. -/
def ExtendedSourceInit (optBand : PyArg) (fov img_PS patch_padding : ℚ) (nSubDirs : ℕ) :
    Except String ExtendedSourceState :=
  match photometry optBand with
  | PhotometryResult.sentinel => Except.error badBandMsg
  | PhotometryResult.attr _ => Except.error attrBandMsg
  | PhotometryResult.phot w bw zp =>
      if 7 < nSubDirs then Except.error tooManyDirsMsg
      else
        let subDir_size : ℚ :=
          if 1 < nSubDirs then (2 * (fov + patch_padding)) / ((nSubDirs : ℚ) + 1)
          else fov + patch_padding
        Except.ok
          { wavelength := w
            bandwidth := bw
            nPhoton := zp
            nSubDirs := nSubDirs
            fov := fov
            patch_padding := patch_padding
            img_PS := img_PS
            subDir_size := subDir_size
            filt_width := npRound (subDir_size / img_PS)
            subDirPhoton := ((npRound (zp / ((nSubDirs : ℚ) * (nSubDirs : ℚ))) : ℤ) : ℚ) }

/-- C4.  With nSubDirs > 7 the constructor always fails (so no object
and no partial state is produced), and the feasibility BaseException is
raised exactly for a band for which photometry yields a defined triple
together with nSubDirs > 7; in particular for nSubDirs ≤ 7 the
feasibility check never fires. -/
theorem ExtendedSource_feasibility (optBand : PyArg) (fov img_PS patch_padding : ℚ)
    (nSubDirs : ℕ) :
    (7 < nSubDirs → ∃ e, ExtendedSourceInit optBand fov img_PS patch_padding nSubDirs =
      Except.error e) ∧
    (ExtendedSourceInit optBand fov img_PS patch_padding nSubDirs = Except.error tooManyDirsMsg ↔
      ((∃ w bw zp, photometry optBand = PhotometryResult.phot w bw zp) ∧ 7 < nSubDirs)) ∧
    (∀ e, ExtendedSourceInit optBand fov img_PS patch_padding nSubDirs = Except.error e →
      ∀ st, ExtendedSourceInit optBand fov img_PS patch_padding nSubDirs ≠ Except.ok st) := by
  refine ⟨?_, ?_, ?_⟩
  · intro h7
    cases hp : photometry optBand with
    | sentinel => exact ⟨badBandMsg, by simp only [ExtendedSourceInit, hp]⟩
    | attr s => exact ⟨attrBandMsg, by simp only [ExtendedSourceInit, hp]⟩
    | phot w bw zp => exact ⟨tooManyDirsMsg, by simp only [ExtendedSourceInit, hp, if_pos h7]⟩
  · cases hp : photometry optBand with
    | sentinel =>
        simp only [ExtendedSourceInit, hp]
        constructor
        · intro h
          injection h with h'
          exact absurd h' (by decide)
        · rintro ⟨⟨w, bw, zp, hph⟩, -⟩
          exact absurd hph (by simp)
    | attr s =>
        simp only [ExtendedSourceInit, hp]
        constructor
        · intro h
          injection h with h'
          exact absurd h' (by decide)
        · rintro ⟨⟨w, bw, zp, hph⟩, -⟩
          exact absurd hph (by simp)
    | phot w bw zp =>
        by_cases h7 : 7 < nSubDirs
        · simp only [ExtendedSourceInit, hp, if_pos h7]
          exact iff_of_true trivial ⟨⟨w, bw, zp, by simp⟩, h7⟩
        · simp only [ExtendedSourceInit, hp, if_neg h7]
          constructor
          · intro h
            exact absurd h (by simp)
          · rintro ⟨-, h⟩
            exact absurd h h7
  · intro e he st hst
    rw [he] at hst
    exact absurd hst (by simp)

/-- Witness for C4: nSubDirs = 8 fails even with the valid band V. -/
theorem ExtendedSource_feasibility_witness :
    ExtendedSourceInit (PyArg.str "V") 10 (1/60) 5 8 = Except.error tooManyDirsMsg :=
  ((ExtendedSource_feasibility (PyArg.str "V") 10 (1/60) 5 8).2.1).mpr
    ⟨⟨5/10000000, 0, 3310000000000, rfl⟩, by norm_num⟩

/-! ## ExtendedSource.__mul__ : per-tile flux (ExtendedSource.py, line 307)

During src*tel coupling every sub-direction source i receives
fluxMap = pupilReflectivity * (1/nSubDirs**2) * src[i].nPhoton *
samplingTime * (D/resolution)**2, where src[i].nPhoton was already set
to round(parent nPhoton / nSubDirs^2) at construction (line 126). -/

/-- Flux-map value assigned to each sub-direction during coupling, as
the code computes it (the reflectivity argument stands for the value of
the reflectivity map at the pixel under consideration). -/
def sunMulFluxMap (es : ExtendedSourceState) (pupilReflectivity samplingTime D : ℚ)
    (resolution : ℕ) : ℚ :=
  pupilReflectivity * (1 / ((es.nSubDirs : ℚ) ^ 2)) * es.subDirPhoton * samplingTime *
    (D / (resolution : ℚ)) ^ 2

/-- Flux-map value as claim C6 words it: pupilReflectivity times the
per-tile nPhoton times samplingTime times (D/resolution)^2, with no
further division by the tile count. -/
def claimedFluxMapC6 (es : ExtendedSourceState) (pupilReflectivity samplingTime D : ℚ)
    (resolution : ℕ) : ℚ :=
  pupilReflectivity * es.subDirPhoton * samplingTime * (D / (resolution : ℚ)) ^ 2

/-- Helper: numpy round of an exact integer is that integer. -/
theorem npRound_intCast (n : ℤ) : npRound ((n : ℤ) : ℚ) = n := by
  unfold npRound
  rw [Int.floor_intCast]
  norm_num

/-- Counterexample to C6: for the V band with nSubDirs = 2 and unit
telescope parameters the code assigns a flux map value that is a factor
nSubDirs^2 = 4 below the value the claim asserts. -/
theorem sunMulFluxMap_counterexample :
    ∃ st, ExtendedSourceInit (PyArg.str "V") 10 (1/60) 5 2 = Except.ok st ∧
      sunMulFluxMap st 1 1 1 1 ≠ claimedFluxMapC6 st 1 1 1 1 := by
  refine ⟨_, rfl, ?_⟩
  have h4 : (3310000000000 : ℚ) / (((2 : ℕ) : ℚ) * ((2 : ℕ) : ℚ)) = ((827500000000 : ℤ) : ℚ) := by
    push_cast
    norm_num
  simp only [sunMulFluxMap, claimedFluxMapC6, h4, npRound_intCast]
  push_cast
  norm_num

/-- C6 amended.  Each sub-direction source carries nPhoton =
round(parent nPhoton / nSubDirs^2) as claimed, but the flux map
assigned during coupling contains one further division by the tile
count: it equals pupilReflectivity * samplingTime * (D/resolution)^2 *
round(parent nPhoton / nSubDirs^2) / nSubDirs^2. -/
theorem sunMulFluxMap_divides_twice (optBand : PyArg) (fov img_PS patch_padding : ℚ)
    (nSubDirs : ℕ) (st : ExtendedSourceState) (w bw zp : ℚ)
    (hband : photometry optBand = PhotometryResult.phot w bw zp)
    (hok : ExtendedSourceInit optBand fov img_PS patch_padding nSubDirs = Except.ok st)
    (pupilReflectivity samplingTime D : ℚ) (resolution : ℕ) :
    st.nPhoton = zp ∧
    st.subDirPhoton = ((npRound (zp / ((nSubDirs : ℚ) * (nSubDirs : ℚ))) : ℤ) : ℚ) ∧
    sunMulFluxMap st pupilReflectivity samplingTime D resolution =
      pupilReflectivity * samplingTime * (D / (resolution : ℚ)) ^ 2 *
        ((npRound (zp / ((nSubDirs : ℚ) * (nSubDirs : ℚ))) : ℤ) : ℚ) / ((nSubDirs : ℚ) ^ 2) := by
  simp only [ExtendedSourceInit, hband] at hok
  by_cases h7 : 7 < nSubDirs
  · rw [if_pos h7] at hok
    exact absurd hok (by simp)
  rw [if_neg h7] at hok
  injection hok with h
  subst h
  refine ⟨rfl, rfl, ?_⟩
  unfold sunMulFluxMap
  dsimp only
  ring

/-- Witness for the amended C6 at the V band, nSubDirs = 2, unit
telescope parameters. -/
theorem sunMulFluxMap_divides_twice_witness :
    ∃ st, ExtendedSourceInit (PyArg.str "V") 10 (1/60) 5 2 = Except.ok st ∧
      sunMulFluxMap st 1 1 1 1 =
        1 * 1 * ((1 : ℚ) / ((1 : ℕ) : ℚ)) ^ 2 *
          ((npRound (3310000000000 / (((2 : ℕ) : ℚ) * ((2 : ℕ) : ℚ))) : ℤ) : ℚ) /
            (((2 : ℕ) : ℚ) ^ 2) :=
  ⟨_, rfl, (sunMulFluxMap_divides_twice (PyArg.str "V") 10 (1/60) 5 2 _
      (5/10000000) 0 3310000000000 rfl rfl 1 1 1 1).2.2⟩

/-! ## Telescope.computePSF : wavelength check (Telescope.py, lines 237-294)

The method collects the input sources (the asterism members, the sun
sub-directions, or the single source), reads the wavelength of the
first member, and then walks the members in order: a member whose
wavelength differs from the first raises an AttributeError, otherwise
PropagateField is called for the member and its PSF is appended to the
output list. -/

/-- Data of one member of the source set that the wavelength check and
the per-member propagation consult. -/
structure MemberSource where
  wavelength : ℚ
  srcId : ℕ
deriving DecidableEq

/-- Message of the AttributeError raised on an asterism wavelength
mismatch. -/
def asterismMismatchMsg : String :=
  "The asterism contains sources with different wavelengths. Summing up PSFs with different wavelength is not implemented."

/-- Inner loop of computePSF over the member list: psfOf stands for the
PSF that PropagateField produces for a member (its exact pixels do not
matter to the claim), w0 is the wavelength of the first member. -/
def computePSFLoop (psfOf : MemberSource → ℚ) (mismatchMsg : String) (w0 : ℚ) :
    List MemberSource → Except String (List ℚ)
  | [] => Except.ok []
  | s :: rest =>
      if s.wavelength = w0 then
        match computePSFLoop psfOf mismatchMsg w0 rest with
        | Except.ok l => Except.ok (psfOf s :: l)
        | Except.error e => Except.error e
      else Except.error mismatchMsg

/-- Embedding of the wavelength-checking PSF loop of computePSF for a
source set with first member s0. -/
def computePSFMembers (psfOf : MemberSource → ℚ) (mismatchMsg : String)
    (s0 : MemberSource) (rest : List MemberSource) : Except String (List ℚ) :=
  computePSFLoop psfOf mismatchMsg s0.wavelength (s0 :: rest)

/-- Helper: the loop succeeds exactly on members that all carry w0, and
then returns the PSFs in member order. -/
theorem computePSFLoop_spec (psfOf : MemberSource → ℚ) (msg : String) (w0 : ℚ)
    (l : List MemberSource) :
    ((∀ s ∈ l, s.wavelength = w0) →
      computePSFLoop psfOf msg w0 l = Except.ok (l.map psfOf)) ∧
    ((∃ s ∈ l, s.wavelength ≠ w0) →
      computePSFLoop psfOf msg w0 l = Except.error msg) := by
  induction l with
  | nil =>
      refine ⟨fun _ => rfl, ?_⟩
      rintro ⟨s, hs, -⟩
      exact absurd hs (List.not_mem_nil s)
  | cons s rest ih =>
      constructor
      · intro hall
        have hs : s.wavelength = w0 := hall s (List.mem_cons_self s rest)
        have hrest := ih.1 (fun t ht => hall t (List.mem_cons_of_mem s ht))
        simp only [computePSFLoop, if_pos hs, hrest, List.map_cons]
      · rintro ⟨t, ht, htne⟩
        rcases List.mem_cons.mp ht with rfl | ht'
        · simp only [computePSFLoop, if_neg htne]
        · by_cases hs : s.wavelength = w0
          · have hrest := ih.2 ⟨t, ht', htne⟩
            simp only [computePSFLoop, if_pos hs, hrest]
          · simp only [computePSFLoop, if_neg hs]

/-- C5.  For a source set (first member s0, remaining members rest)
computePSF raises the wavelength AttributeError exactly when some
member carries a wavelength different from the first member, and when
all members share the first wavelength it produces exactly one PSF per
member, in member order. -/
theorem computePSF_wavelength_check (psfOf : MemberSource → ℚ) (msg : String)
    (s0 : MemberSource) (rest : List MemberSource) :
    ((∃ e, computePSFMembers psfOf msg s0 rest = Except.error e) ↔
      ∃ s ∈ s0 :: rest, s.wavelength ≠ s0.wavelength) ∧
    ((∀ s ∈ s0 :: rest, s.wavelength = s0.wavelength) →
      computePSFMembers psfOf msg s0 rest = Except.ok ((s0 :: rest).map psfOf)) ∧
    ((∃ s ∈ s0 :: rest, s.wavelength ≠ s0.wavelength) →
      computePSFMembers psfOf msg s0 rest = Except.error msg) := by
  have hspec := computePSFLoop_spec psfOf msg s0.wavelength (s0 :: rest)
  refine ⟨⟨?_, ?_⟩, hspec.1, hspec.2⟩
  · rintro ⟨e, he⟩
    by_contra hnot
    push_neg at hnot
    unfold computePSFMembers at he
    rw [hspec.1 hnot] at he
    exact absurd he (by simp)
  · intro hex
    exact ⟨msg, hspec.2 hex⟩

/-- Witness for C5: two members with wavelengths 1 and 2 raise the
mismatch error; two members both at wavelength 1 give the two PSFs in
order. -/
theorem computePSF_wavelength_check_witness :
    computePSFMembers (fun s => (s.srcId : ℚ)) asterismMismatchMsg ⟨1, 0⟩ [⟨2, 1⟩] =
      Except.error asterismMismatchMsg ∧
    computePSFMembers (fun s => (s.srcId : ℚ)) asterismMismatchMsg ⟨1, 0⟩ [⟨1, 1⟩] =
      Except.ok [((0 : ℕ) : ℚ), ((1 : ℕ) : ℚ)] :=
  ⟨(computePSF_wavelength_check (fun s => (s.srcId : ℚ)) asterismMismatchMsg ⟨1, 0⟩ [⟨2, 1⟩]).2.2
      ⟨⟨2, 1⟩, by simp, by norm_num⟩,
   (computePSF_wavelength_check (fun s => (s.srcId : ℚ)) asterismMismatchMsg ⟨1, 0⟩ [⟨1, 1⟩]).2.1
      (by intro s hs; rcases List.mem_cons.mp hs with rfl | hs' <;> simp_all)⟩

/-! ## Telescope OPD and OPD_no_pupil setters, list case
(Telescope.py, lines 473-512 and 518-546)

When the assigned value is a list and the coupled source is an asterism,
the OPD setter only updates the per-source phases when the list length
matches the number of sources; a mismatch is silently ignored (there is
no else branch, no exception).  The OPD_no_pupil setter does raise a
TypeError on a mismatch.  For a sun source the OPD setter performs no
length check at all and indexes the list for every sub-direction, so a
too-short list raises an IndexError after the leading sub-directions
have already been updated, while the OPD_no_pupil setter checks the
length and raises before touching any phase.  In both setters the
backing attribute is assigned before any check.  Phases are stored per
source as value * scale where scale stands for 2*pi/wavelength. -/

/-- Telescope state consulted by the list-assignment branches of the
OPD setters for a coupled asterism or sun source. -/
structure MultiSourceTel where
  n_source : ℕ
  scales : List ℚ
  phases : List ℚ
  phases_no_pupil : List ℚ
  opd : List ℚ
  opd_no_pupil : List ℚ
deriving DecidableEq

/-- Message of the TypeError raised by the OPD_no_pupil setter on an
asterism length mismatch. -/
def opdLenMismatchMsg : String :=
  "The lenght of the OPD list does not match the number of sources"

/-- Message of the TypeError raised by the OPD_no_pupil setter on a sun
length mismatch. -/
def opdLenMismatchSunMsg : String :=
  "The lenght of the OPD list does not match the number of subDirs defined for the sun"

/-- Message of the Python IndexError raised when a loop indexes past
the end of a list. -/
def indexErrMsg : String := "IndexError: list index out of range"

/-- OPD setter, list value, asterism source (lines 497-504): the
backing attribute is set, and the phases are updated only when the
length matches; no error is ever reported. -/
def OPD_setter_list_asterism (tel : MultiSourceTel) (val : List ℚ) :
    MultiSourceTel × Option String :=
  let tel' := { tel with opd := val }
  if val.length = tel.n_source then
    ({ tel' with phases :=
        (List.range tel.n_source).map (fun i => val.getD i 0 * tel.scales.getD i 0) }, none)
  else (tel', none)

/-- OPD setter, list value, sun source (lines 505-510): no length
check; every sub-direction indexes the list, so the phases with index
below the list length are updated and a too-short list then raises an
IndexError. -/
def OPD_setter_list_sun (tel : MultiSourceTel) (val : List ℚ) :
    MultiSourceTel × Option String :=
  let tel' := { tel with opd := val }
  ({ tel' with phases :=
      (List.range tel.n_source).map (fun i =>
        if i < val.length then val.getD i 0 * tel.scales.getD i 0 else tel.phases.getD i 0) },
   if val.length < tel.n_source then some indexErrMsg else none)

/-- OPD_no_pupil setter, list value, asterism source (lines 534-540):
the backing attribute is set, then a length mismatch raises a TypeError
before any phase is touched. -/
def OPD_no_pupil_setter_list_asterism (tel : MultiSourceTel) (val : List ℚ) :
    MultiSourceTel × Option String :=
  let tel' := { tel with opd_no_pupil := val }
  if val.length = tel.n_source then
    ({ tel' with phases_no_pupil :=
        (List.range tel.n_source).map (fun i => val.getD i 0 * tel.scales.getD i 0) }, none)
  else (tel', some opdLenMismatchMsg)

/-- OPD_no_pupil setter, list value, sun source (lines 541-546): same
shape as the asterism branch with the sun message. -/
def OPD_no_pupil_setter_list_sun (tel : MultiSourceTel) (val : List ℚ) :
    MultiSourceTel × Option String :=
  let tel' := { tel with opd_no_pupil := val }
  if val.length = tel.n_source then
    ({ tel' with phases_no_pupil :=
        (List.range tel.n_source).map (fun i => val.getD i 0 * tel.scales.getD i 0) }, none)
  else (tel', some opdLenMismatchSunMsg)

/-- Counterexample to C7: a telescope coupled to a 2-source asterism,
assigned an OPD list of length 1 through the OPD setter, reports no
error at all (the claim asserts a fatal error is reported
immediately). -/
theorem OPD_setter_mismatch_counterexample :
    (OPD_setter_list_asterism ⟨2, [1, 1], [0, 0], [0, 0], [0, 0], [0, 0]⟩ [5]).2 = none ∧
    ([5] : List ℚ).length ≠ (2 : ℕ) := by
  constructor
  · rfl
  · simp

/-- C7 amended.  Assigning a list to OPD_no_pupil with a length that
differs from the number of coupled sources (asterism) or sun
sub-directions raises immediately and leaves the phase fields
unchanged; assigning a mismatched list to OPD for an asterism raises
nothing and silently leaves the phases unchanged; assigning a list to
OPD for a sun source raises only an IndexError and only when the list
is shorter than the number of sub-directions. -/
theorem OPD_setters_mismatch (tel : MultiSourceTel) (val : List ℚ) :
    (((OPD_no_pupil_setter_list_asterism tel val).2 ≠ none ↔ val.length ≠ tel.n_source) ∧
      (val.length ≠ tel.n_source →
        (OPD_no_pupil_setter_list_asterism tel val).1.phases_no_pupil = tel.phases_no_pupil ∧
        (OPD_no_pupil_setter_list_asterism tel val).1.phases = tel.phases)) ∧
    (((OPD_no_pupil_setter_list_sun tel val).2 ≠ none ↔ val.length ≠ tel.n_source) ∧
      (val.length ≠ tel.n_source →
        (OPD_no_pupil_setter_list_sun tel val).1.phases_no_pupil = tel.phases_no_pupil ∧
        (OPD_no_pupil_setter_list_sun tel val).1.phases = tel.phases)) ∧
    ((OPD_setter_list_asterism tel val).2 = none ∧
      (val.length ≠ tel.n_source →
        (OPD_setter_list_asterism tel val).1.phases = tel.phases)) ∧
    ((OPD_setter_list_sun tel val).2 ≠ none ↔ val.length < tel.n_source) := by
  refine ⟨⟨?_, ?_⟩, ⟨?_, ?_⟩, ⟨?_, ?_⟩, ?_⟩
  · unfold OPD_no_pupil_setter_list_asterism
    by_cases h : val.length = tel.n_source
    · rw [if_pos h]
      simp [h]
    · rw [if_neg h]
      simp [h]
  · intro h
    unfold OPD_no_pupil_setter_list_asterism
    rw [if_neg h]
    exact ⟨rfl, rfl⟩
  · unfold OPD_no_pupil_setter_list_sun
    by_cases h : val.length = tel.n_source
    · rw [if_pos h]
      simp [h]
    · rw [if_neg h]
      simp [h]
  · intro h
    unfold OPD_no_pupil_setter_list_sun
    rw [if_neg h]
    exact ⟨rfl, rfl⟩
  · unfold OPD_setter_list_asterism
    by_cases h : val.length = tel.n_source
    · rw [if_pos h]
    · rw [if_neg h]
  · intro h
    unfold OPD_setter_list_asterism
    rw [if_neg h]
  · unfold OPD_setter_list_sun
    by_cases h : val.length < tel.n_source
    · rw [if_pos h]
      simp [h]
    · rw [if_neg h]
      simp [h]

/-- Witness for the amended C7 on a 2-source telescope and a length-1
list. -/
theorem OPD_setters_mismatch_witness :
    (OPD_no_pupil_setter_list_asterism ⟨2, [1, 1], [0, 0], [0, 0], [0, 0], [0, 0]⟩ [5]).2 ≠
      none ∧
    (OPD_no_pupil_setter_list_asterism ⟨2, [1, 1], [0, 0], [0, 0], [0, 0], [0, 0]⟩
        [5]).1.phases_no_pupil = [0, 0] :=
  ⟨((OPD_setters_mismatch ⟨2, [1, 1], [0, 0], [0, 0], [0, 0], [0, 0]⟩ [5]).1.1).mpr (by simp),
   ((OPD_setters_mismatch ⟨2, [1, 1], [0, 0], [0, 0], [0, 0], [0, 0]⟩ [5]).1.2 (by simp)).1⟩

/-! ## Telescope.computePSF : out-of-field warning
(Telescope.py, lines 177 and 276-287)

warning_src is initialised to False at the end of the constructor.  In
computePSF, for a sun source a member whose radial offset plus the
half-diagonal of its field exceeds tel.fov prints a warning (when the
flag is still False) and sets the flag; for any other source the test
is instead offset greater than the half-extent of the computed PSF axis
(the telescope field of view is not consulted).  In every case
PropagateField is still called afterwards, so the PSF is computed. -/

/-- Tag distinguishing the sun branch from the point-source branch of
the warning test. -/
inductive WarnTag where
  | sun : WarnTag
  | star : WarnTag
deriving DecidableEq

/-- Data of one source as the warning test sees it: its radial offset
(coordinates[0]) and the half-extent computed upstream (the diagonal
semi-length of the sun patch, or the maximum of the PSF axis in
arcsec). -/
structure WarnSource where
  tag : WarnTag
  radial : ℚ
  halfExtent : ℚ
deriving DecidableEq

/-- Warning condition as coded: sun compares offset plus half-diagonal
against tel.fov; a point source compares its offset against the PSF
half-extent alone. -/
def warnCondition (fov : ℚ) (s : WarnSource) : Bool :=
  match s.tag with
  | WarnTag.sun => decide (fov < s.radial + s.halfExtent)
  | WarnTag.star => decide (s.halfExtent < s.radial)

/-- One member step of computePSF: returns (warning printed now,
updated warning_src flag, PSF computed).  The PSF is computed
unconditionally after the test. -/
def warnStep (fov : ℚ) (warning_src : Bool) (s : WarnSource) : Bool × Bool × Bool :=
  if warnCondition fov s then
    if warning_src then (false, true, true) else (true, true, true)
  else (false, warning_src, true)

/-- Run of all warning steps over any sequence of sources handed to any
number of computePSF calls on one telescope instance: returns the
number of warnings printed and the final flag. -/
def warnRun (fov : ℚ) : Bool → List WarnSource → ℕ × Bool
  | w, [] => (0, w)
  | w, s :: rest =>
      let step := warnStep fov w s
      let r := warnRun fov step.2.1 rest
      ((if step.1 then 1 else 0) + r.1, r.2)

/-- Counterexample to C8: a point source at offset 1 with PSF
half-extent 2 under a telescope field of view of 2 satisfies the
condition of the claim (offset plus half-width 3 exceeds the field of
view 2) yet the code prints no warning, because for non-sun sources the
coded test compares the offset against the half-extent alone. -/
theorem warnStep_counterexample :
    (2 : ℚ) < 1 + 2 ∧
    (warnStep 2 false ⟨WarnTag.star, 1, 2⟩).1 = false := by
  constructor
  · norm_num
  · rfl

/-- Helper: once the flag is set, no further warning is ever printed. -/
theorem warnRun_flag_set (fov : ℚ) (l : List WarnSource) : (warnRun fov true l).1 = 0 := by
  induction l with
  | nil => rfl
  | cons s rest ih =>
      show (warnRun fov true (s :: rest)).1 = 0
      unfold warnRun warnStep
      by_cases h : warnCondition fov s = true
      · rw [if_pos h]
        simpa using ih
      · rw [if_neg h]
        simpa using ih

/-- C8 amended.  For a sun sub-direction the warning fires exactly when
the radial offset plus the half-diagonal exceeds the telescope field of
view and the flag is still unset; for a point source the coded test is
offset greater than the PSF half-extent instead.  A warning never
aborts: the PSF is computed on every step.  Over the whole lifetime of
one telescope instance (flag starting at False, any sequence of sources
across any number of computePSF calls) at most one warning is printed. -/
theorem warning_once (fov : ℚ) (w : Bool) (s : WarnSource) (l : List WarnSource) :
    ((warnStep fov w s).1 = (warnCondition fov s && !w)) ∧
    ((warnStep fov w s).2.1 = (w || warnCondition fov s)) ∧
    ((warnStep fov w s).2.2 = true) ∧
    (s.tag = WarnTag.sun → (warnCondition fov s = decide (fov < s.radial + s.halfExtent))) ∧
    (s.tag = WarnTag.star → (warnCondition fov s = decide (s.halfExtent < s.radial))) ∧
    (warnRun fov false l).1 ≤ 1 := by
  refine ⟨?_, ?_, ?_, ?_, ?_, ?_⟩
  · unfold warnStep
    by_cases hc : warnCondition fov s = true
    · rw [if_pos hc, hc]
      cases w <;> rfl
    · rw [if_neg hc]
      rw [Bool.not_eq_true] at hc
      rw [hc]
      rfl
  · unfold warnStep
    by_cases hc : warnCondition fov s = true
    · rw [if_pos hc, hc]
      cases w <;> rfl
    · rw [if_neg hc]
      rw [Bool.not_eq_true] at hc
      rw [hc]
      cases w <;> rfl
  · unfold warnStep
    by_cases hc : warnCondition fov s = true
    · rw [if_pos hc]
      cases w <;> rfl
    · rw [if_neg hc]
  · intro h
    unfold warnCondition
    rw [h]
  · intro h
    unfold warnCondition
    rw [h]
  · induction l with
    | nil => exact Nat.zero_le 1
    | cons t rest ih =>
        show (warnRun fov false (t :: rest)).1 ≤ 1
        unfold warnRun warnStep
        by_cases hc : warnCondition fov t = true
        · rw [if_pos hc]
          have := warnRun_flag_set fov rest
          simp [this]
        · rw [if_neg hc]
          simpa using ih

/-- Witness for the amended C8: sun source at offset 1, half-diagonal
2, field of view 2 fires the warning once, and a second identical
source in the same lifetime does not fire it again. -/
theorem warning_once_witness :
    (warnStep 2 false ⟨WarnTag.sun, 1, 2⟩).1 =
      (warnCondition 2 ⟨WarnTag.sun, 1, 2⟩ && !false) ∧
    (warnRun 2 false [⟨WarnTag.sun, 1, 2⟩, ⟨WarnTag.sun, 1, 2⟩]).1 ≤ 1 :=
  ⟨(warning_once 2 false ⟨WarnTag.sun, 1, 2⟩ []).1,
   (warning_once 2 false ⟨WarnTag.sun, 1, 2⟩ [⟨WarnTag.sun, 1, 2⟩, ⟨WarnTag.sun, 1, 2⟩]).2.2.2.2.2⟩

/-! ## Pupil and reflectivity (Telescope.py, lines 151-196, 455-467, 756-796)

The pupil is a property: every assignment to tel.pupil runs the setter,
which stores the mask as integers and resets pupilReflectivity to the
mask cast to float.  set_pupil builds the circular mask (or copies the
user mask) through that setter and finally multiplies the reflectivity
by the mask.  apply_spiders rebuilds the default pupil, multiplies in
the spider masks (whose trigonometric geometry is irrelevant to the
invariant and enters the model as an opaque boolean mask), and assigns
the result through the setter.  Pixels are addressed by row and column
index; masks are integer-valued, the reflectivity map rational. -/

/-- Telescope state consulted by the pupil-editing operations. -/
structure PupilTel where
  resolution : ℕ
  D : ℚ
  centralObstruction : ℚ
  user_defined_pupil : Option (ℕ → ℕ → ℤ)
  pupil : ℕ → ℕ → ℤ
  pupilReflectivity : ℕ → ℕ → ℚ

/-- Embedding of the pupil property setter (lines 459-467): the mask is
stored as integers and the reflectivity is reset to the mask cast to
float. -/
def pupil_setter (tel : PupilTel) (val : ℕ → ℕ → ℤ) : PupilTel :=
  { tel with pupil := val, pupilReflectivity := fun i j => ((val i j : ℤ) : ℚ) }

/-- Value i of numpy linspace(-resolution/2, resolution/2, resolution). -/
def linspaceVal (resolution : ℕ) (i : ℕ) : ℚ :=
  -(resolution : ℚ) / 2 + (i : ℚ) * ((resolution : ℚ) / ((resolution : ℚ) - 1))

/-- Embedding of Telescope.set_pupil (lines 180-196).  Without a user
pupil, the circular mask with central obstruction is built and assigned
through the pupil property (twice, as in the source: first the disc,
then the product with the obstruction); with a user pupil the copy is
assigned through the property.  Finally the reflectivity is multiplied
by the mask. -/
def set_pupil_mask_stage (tel : PupilTel) : PupilTel :=
  match tel.user_defined_pupil with
  | none =>
      let Dloc : ℚ := (tel.resolution : ℚ) + 1
      let circle : ℕ → ℕ → ℚ := fun i j =>
        (linspaceVal tel.resolution i) ^ 2 + (linspaceVal tel.resolution j) ^ 2
      let tel₁ := pupil_setter tel (fun i j => if circle i j < (Dloc / 2) ^ 2 then 1 else 0)
      pupil_setter tel₁ (fun i j =>
        tel₁.pupil i j *
          (if (tel.centralObstruction * Dloc / 2) ^ 2 ≤ circle i j then 1 else 0))
  | some u => pupil_setter tel u

/-- Final line of set_pupil: multiply the reflectivity by the mask. -/
def set_pupil (tel : PupilTel) : PupilTel :=
  let tel₂ := set_pupil_mask_stage tel
  { tel₂ with pupilReflectivity := fun i j =>
      ((tel₂.pupil i j : ℤ) : ℚ) * tel₂.pupilReflectivity i j }

/-- Embedding of the Telescope constructor steps that touch the pupil
(lines 163-165): store the user pupil and user reflectivity, then run
set_pupil. -/
def Telescope_init (resolution : ℕ) (D centralObstruction : ℚ)
    (userPupil : Option (ℕ → ℕ → ℤ)) (userReflectivity : ℕ → ℕ → ℚ) : PupilTel :=
  set_pupil
    { resolution := resolution
      D := D
      centralObstruction := centralObstruction
      user_defined_pupil := userPupil
      pupil := fun _ _ => 0
      pupilReflectivity := userReflectivity }

/-- Embedding of Telescope.apply_spiders (lines 756-796).  The
thickness test is passed as the boolean it decides; the spider distance
maps are trigonometric and enter as the pointwise boolean mask their
comparison against half the thickness produces.  With positive
thickness the default pupil is rebuilt, multiplied by the spider mask
and assigned through the pupil property; otherwise set_pupil alone
runs. -/
def apply_spiders (tel : PupilTel) (thickness_pos : Bool) (spiderMask : ℕ → ℕ → Bool) :
    PupilTel :=
  if thickness_pos then
    let tel₁ := set_pupil tel
    pupil_setter tel₁ (fun i j => tel₁.pupil i j * (if spiderMask i j then 1 else 0))
  else set_pupil tel

/-- C9.  After construction, after every assignment through the pupil
property, after set_pupil, and after apply_spiders, the reflectivity
map is zero at every pixel where the pupil mask is zero. -/
theorem reflectivity_zero_off_pupil (i j : ℕ) :
    (∀ resolution D co userPupil userReflectivity,
      (Telescope_init resolution D co userPupil userReflectivity).pupil i j = 0 →
      (Telescope_init resolution D co userPupil userReflectivity).pupilReflectivity i j = 0) ∧
    (∀ tel val, (pupil_setter tel val).pupil i j = 0 →
      (pupil_setter tel val).pupilReflectivity i j = 0) ∧
    (∀ tel, (set_pupil tel).pupil i j = 0 → (set_pupil tel).pupilReflectivity i j = 0) ∧
    (∀ tel tp mask, (apply_spiders tel tp mask).pupil i j = 0 →
      (apply_spiders tel tp mask).pupilReflectivity i j = 0) := by
  have hset : ∀ tel : PupilTel, (set_pupil tel).pupil i j = 0 →
      (set_pupil tel).pupilReflectivity i j = 0 := by
    intro tel h
    have h' : (set_pupil_mask_stage tel).pupil i j = 0 := h
    show (((set_pupil_mask_stage tel).pupil i j : ℤ) : ℚ) *
      (set_pupil_mask_stage tel).pupilReflectivity i j = 0
    rw [h']
    simp
  have hsetter : ∀ (tel : PupilTel) val, (pupil_setter tel val).pupil i j = 0 →
      (pupil_setter tel val).pupilReflectivity i j = 0 := by
    intro tel val h
    have h' : val i j = 0 := h
    show ((val i j : ℤ) : ℚ) = 0
    rw [h']
    simp
  refine ⟨?_, hsetter, hset, ?_⟩
  · intro resolution D co userPupil userReflectivity h
    exact hset _ h
  · intro tel tp mask h
    cases tp
    · exact hset tel h
    · exact hsetter _ _ h

/-- Witness for C9: a 4-pixel default telescope has pupil 0 at the
corner pixel (0,0), and the reflectivity there is 0. -/
theorem reflectivity_zero_off_pupil_witness :
    (Telescope_init 4 8 0 none (fun _ _ => 1)).pupilReflectivity 0 0 = 0 :=
  (reflectivity_zero_off_pupil 0 0).1 4 8 0 none (fun _ _ => 1) (by
    norm_num [Telescope_init, set_pupil, set_pupil_mask_stage, pupil_setter, linspaceVal])

/-! ## ExtendedSource blending filters (ExtendedSource.py, lines 130-167)

filt_width is round(subDir_size / img_PS).  The 1D profile is
lin = 1 - abs(arange(filt_width) - (filt_width-1)/2) / ((filt_width-1)/2)
and the 2D template is the outer product lin x lin.  Each tile (dirX,
dirY) starts from the template; a tile on the dirX = 0 edge adds the
bottom half-block of the template to its top rows (slice [0:w//2] on
the left, slice [-w//2:] on the right), and symmetrically for the three
other edges; the four outward corner quadrants of corner tiles are then
overwritten with the template maximum.  The two numpy slices [0:w//2]
and [-w//2:] hold w//2 and w - w//2 rows respectively, so the in-place
addition only type-checks (and the filters are only ever built) when
filt_width is even; the model therefore works with filt_width = 2*m.
In computePSF (Telescope.py lines 311-327) tile (dirX, dirY) is placed
at mosaic offset dirX, dirY times half the tile width, i.e. m pixels
per index step, giving the 50 percent overlap. -/

/-- One-dimensional tent profile of the blending filter, index i of
numpy 1 - abs(arange(w) - (w-1)/2)/((w-1)/2). -/
def lin (w i : ℕ) : ℚ :=
  1 - |(i : ℚ) - ((w : ℚ) - 1) / 2| / (((w : ℚ) - 1) / 2)

/-- Separable 2D tent template, entry (i, j) of the outer product of
lin with itself. -/
def filter_2D_template (w i j : ℕ) : ℚ := lin w i * lin w j

/-- Peak value of the even-width tent profile lin (2m):
(2m-2)/(2m-1), attained at indices m-1 and m. -/
def linPeak (m : ℕ) : ℚ := (2 * (m : ℚ) - 2) / (2 * (m : ℚ) - 1)

/-- Maximum of the even-width 2D template (the value numpy max returns
on filter_2D_template): the square of the profile peak. -/
def tentMax (m : ℕ) : ℚ := linPeak m * linPeak m

/-- Helper: for an even width 2m and t < m the profile takes the value
2t/(2m-1) on the rising half. -/
theorem lin_low (m t : ℕ) (hm : 1 ≤ m) (ht : t < m) :
    lin (2 * m) t = 2 * (t : ℚ) / (2 * (m : ℚ) - 1) := by
  have hmq : (1 : ℚ) ≤ (m : ℚ) := by exact_mod_cast hm
  have htq : (t : ℚ) ≤ (m : ℚ) - 1 := by
    have : (t : ℚ) + 1 ≤ (m : ℚ) := by exact_mod_cast ht
    linarith
  have hne : 2 * (m : ℚ) - 1 ≠ 0 := ne_of_gt (by linarith)
  unfold lin
  rw [abs_of_nonpos (by push_cast; linarith)]
  push_cast
  field_simp
  ring

/-- Helper: for an even width 2m and t < m the profile takes the value
(2m-2-2t)/(2m-1) on the falling half. -/
theorem lin_high (m t : ℕ) (hm : 1 ≤ m) (ht : t < m) :
    lin (2 * m) (t + m) = (2 * (m : ℚ) - 2 - 2 * (t : ℚ)) / (2 * (m : ℚ) - 1) := by
  have hmq : (1 : ℚ) ≤ (m : ℚ) := by exact_mod_cast hm
  have htq : (t : ℚ) ≤ (m : ℚ) - 1 := by
    have : (t : ℚ) + 1 ≤ (m : ℚ) := by exact_mod_cast ht
    linarith
  have htq0 : (0 : ℚ) ≤ (t : ℚ) := by positivity
  have hne : 2 * (m : ℚ) - 1 ≠ 0 := ne_of_gt (by linarith)
  unfold lin
  rw [abs_of_nonneg (by push_cast; linarith)]
  push_cast
  field_simp
  ring

/-- Helper: two tent profiles half a width apart sum to the peak. -/
theorem lin_add (m t : ℕ) (hm : 1 ≤ m) (ht : t < m) :
    lin (2 * m) t + lin (2 * m) (t + m) = linPeak m := by
  have hmq : (1 : ℚ) ≤ (m : ℚ) := by exact_mod_cast hm
  rw [lin_low m t hm ht, lin_high m t hm ht]
  unfold linPeak
  rw [div_add_div_same]
  ring_nf

/-- Helper: the even-width profile never exceeds its peak, which it
attains at index m-1; together these identify linPeak as numpy max of
lin and tentMax as numpy max of the template. -/
theorem lin_le_linPeak (m i : ℕ) (hm : 1 ≤ m) (hi : i < 2 * m) :
    lin (2 * m) i ≤ linPeak m := by
  have hmq : (1 : ℚ) ≤ (m : ℚ) := by exact_mod_cast hm
  rcases Nat.lt_or_ge i m with h | h
  · rw [lin_low m i hm h]
    unfold linPeak
    have : (i : ℚ) ≤ (m : ℚ) - 1 := by
      have : (i : ℚ) + 1 ≤ (m : ℚ) := by exact_mod_cast h
      linarith
    apply div_le_div_of_nonneg_right ?_ (by linarith) |>.trans_eq rfl
    · linarith
  · obtain ⟨t, rfl⟩ : ∃ t, i = t + m := ⟨i - m, by omega⟩
    have ht : t < m := by omega
    rw [lin_high m t hm ht]
    unfold linPeak
    have htq0 : (0 : ℚ) ≤ (t : ℚ) := by positivity
    apply div_le_div_of_nonneg_right ?_ (by linarith) |>.trans_eq rfl
    · linarith

/-- Helper: the peak is attained at index m-1. -/
theorem lin_peak_attained (m : ℕ) (hm : 1 ≤ m) : lin (2 * m) (m - 1) = linPeak m := by
  have h := lin_low m (m - 1) hm (by omega)
  rw [h]
  unfold linPeak
  have : ((m - 1 : ℕ) : ℚ) = (m : ℚ) - 1 := by
    have : (1 : ℕ) ≤ m := hm
    push_cast [Nat.cast_sub this]
    ring
  rw [this]
  ring_nf

/-- Helper: the even-width profile is nonnegative on its support. -/
theorem lin_nonneg (m i : ℕ) (hm : 1 ≤ m) (hi : i < 2 * m) : 0 ≤ lin (2 * m) i := by
  have hmq : (1 : ℚ) ≤ (m : ℚ) := by exact_mod_cast hm
  rcases Nat.lt_or_ge i m with h | h
  · rw [lin_low m i hm h]
    have : (0 : ℚ) ≤ (i : ℚ) := by positivity
    apply div_nonneg <;> linarith
  · obtain ⟨t, rfl⟩ : ∃ t, i = t + m := ⟨i - m, by omega⟩
    have ht : t < m := by omega
    rw [lin_high m t hm ht]
    have : (t : ℚ) + 1 ≤ (m : ℚ) := by exact_mod_cast ht
    apply div_nonneg <;> linarith

/-- Helper: the 2D template is bounded by tentMax, which it attains at
(m-1, m-1); tentMax is therefore the numpy max used for the corner
overwrite. -/
theorem template_max (m i j : ℕ) (hm : 1 ≤ m) (hi : i < 2 * m) (hj : j < 2 * m) :
    filter_2D_template (2 * m) i j ≤ tentMax m ∧
    filter_2D_template (2 * m) (m - 1) (m - 1) = tentMax m := by
  constructor
  · unfold filter_2D_template tentMax
    have h1 := lin_nonneg m i hm hi
    have h2 := lin_nonneg m j hm hj
    have h3 := lin_le_linPeak m i hm hi
    have h4 := lin_le_linPeak m j hm hj
    have h5 : (0 : ℚ) ≤ linPeak m := le_trans h1 h3
    exact mul_le_mul h3 h4 h2 h5
  · unfold filter_2D_template tentMax
    rw [lin_peak_attained m hm]

/-- Corner-band predicate: the rows (or columns) of tile d that the
corner overwrite touches are the outer half blocks of the edge tiles
d = 0 (local index below m) and d = n-1 (local index at least m). -/
def cornerBand (m n d i : ℕ) : Prop := (d = 0 ∧ i < m) ∨ (d = n - 1 ∧ m ≤ i)

instance (m n d i : ℕ) : Decidable (cornerBand m n d i) :=
  inferInstanceAs (Decidable ((d = 0 ∧ i < m) ∨ (d = n - 1 ∧ m ≤ i)))

/-- Blending filter of tile (dX, dY) before the corner overwrite: the
template plus the four edge additions of ExtendedSource.py lines
145-156 (model width 2m, so both half-block slices hold m rows). -/
def filter_2D_base (m n dX dY i j : ℕ) : ℚ :=
  filter_2D_template (2 * m) i j
  + (if dX = 0 ∧ i < m then filter_2D_template (2 * m) (i + m) j else 0)
  + (if dX = n - 1 ∧ m ≤ i then filter_2D_template (2 * m) (i - m) j else 0)
  + (if dY = 0 ∧ j < m then filter_2D_template (2 * m) i (j + m) else 0)
  + (if dY = n - 1 ∧ m ≤ j then filter_2D_template (2 * m) i (j - m) else 0)

/-- Blending filter of tile (dX, dY) after the corner overwrite of
lines 160-167: the four outward corner quadrants of corner tiles hold
the template maximum. -/
def filter_2D (m n dX dY i j : ℕ) : ℚ :=
  if cornerBand m n dX i ∧ cornerBand m n dY j then tentMax m
  else filter_2D_base m n dX dY i j

/-- Coverage of mosaic coordinate x by tile index d placed at offset
m*d with width 2m. -/
def covers (m d x : ℕ) : Prop := m * d ≤ x ∧ x < m * d + 2 * m

instance (m d x : ℕ) : Decidable (covers m d x) :=
  inferInstanceAs (Decidable (m * d ≤ x ∧ x < m * d + 2 * m))

/-- Sum of all tiles' blending filters at mosaic pixel (x, y), each
tile placed at its offset of half the tile width per index step (the
placement computePSF uses when accumulating sun_psf_tmp_3D). -/
def mosaicSum (m n x y : ℕ) : ℚ :=
  ∑ dX ∈ Finset.range n, ∑ dY ∈ Finset.range n,
    if covers m dX x ∧ covers m dY y then
      filter_2D m n dX dY (x - m * dX) (y - m * dY)
    else 0

/-- One-dimensional corrected profile of tile d: the profile plus the
edge additions restricted to one axis. -/
def linCorr (m n d i : ℕ) : ℚ :=
  lin (2 * m) i
  + (if d = 0 ∧ i < m then lin (2 * m) (i + m) else 0)
  + (if d = n - 1 ∧ m ≤ i then lin (2 * m) (i - m) else 0)

/-- One-dimensional overlap-add of the raw profile over all covering
tiles. -/
def linSum (m n x : ℕ) : ℚ :=
  ∑ d ∈ Finset.range n, if covers m d x then lin (2 * m) (x - m * d) else 0

/-- One-dimensional overlap-add of the corrected profile over all
covering tiles. -/
def linCorrSum (m n x : ℕ) : ℚ :=
  ∑ d ∈ Finset.range n, if covers m d x then linCorr m n d (x - m * d) else 0

/-- Helper: the base filter separates into products of one-dimensional
profiles. -/
theorem filter_2D_base_eq (m n dX dY i j : ℕ) :
    filter_2D_base m n dX dY i j =
      linCorr m n dX i * lin (2 * m) j + lin (2 * m) i * linCorr m n dY j -
        lin (2 * m) i * lin (2 * m) j := by
  unfold filter_2D_base linCorr filter_2D_template
  split_ifs <;> ring

/-- Helper: a tile covers x exactly when its index is the quotient
x / m or that quotient minus one. -/
theorem covers_iff (m d x : ℕ) (hm : 1 ≤ m) :
    covers m d x ↔ (d = x / m ∨ (1 ≤ x / m ∧ d = x / m - 1)) := by
  have h0 : 0 < m := hm
  have h1 : m * d ≤ x ↔ d ≤ x / m := by
    rw [Nat.le_div_iff_mul_le h0, mul_comm]
  have h2 : x < m * d + 2 * m ↔ x / m < d + 2 := by
    rw [Nat.div_lt_iff_lt_mul h0]
    constructor
    · intro h
      calc x < m * d + 2 * m := h
      _ = (d + 2) * m := by ring
    · intro h
      calc x < (d + 2) * m := h
      _ = m * d + 2 * m := by ring
  unfold covers
  rw [h1, h2]
  omega

/-- Helper: an overlap-add sum over the tile grid collapses to the (at
most two) covering tiles. -/
theorem sum_covers_extract (m n x : ℕ) (hm : 1 ≤ m) (g : ℕ → ℚ) :
    (∑ d ∈ Finset.range n, if covers m d x then g d else 0) =
      (if x / m < n then g (x / m) else 0) +
      (if 1 ≤ x / m ∧ x / m - 1 < n then g (x / m - 1) else 0) := by
  have hpt : ∀ d, (if covers m d x then g d else 0) =
      (if d = x / m then g d else 0) + (if 1 ≤ x / m ∧ d = x / m - 1 then g d else 0) := by
    intro d
    rw [if_congr (covers_iff m d x hm) rfl rfl]
    by_cases hd1 : d = x / m
    · rw [if_pos (Or.inl hd1), if_pos hd1, if_neg (by omega)]
      ring
    · by_cases hd2 : 1 ≤ x / m ∧ d = x / m - 1
      · rw [if_pos (Or.inr hd2), if_neg hd1, if_pos hd2]
        ring
      · rw [if_neg (by tauto), if_neg hd1, if_neg hd2]
        ring
  rw [Finset.sum_congr rfl (fun d _ => hpt d), Finset.sum_add_distrib]
  congr 1
  · rw [Finset.sum_ite_eq' (Finset.range n) (x / m) g]
    simp [Finset.mem_range]
  · by_cases hq : 1 ≤ x / m
    · have : ∀ d, (if 1 ≤ x / m ∧ d = x / m - 1 then g d else 0) =
          (if d = x / m - 1 then g d else 0) := by
        intro d
        by_cases hd : d = x / m - 1
        · rw [if_pos ⟨hq, hd⟩, if_pos hd]
        · rw [if_neg (by tauto), if_neg hd]
      rw [Finset.sum_congr rfl (fun d _ => this d),
        Finset.sum_ite_eq' (Finset.range n) (x / m - 1) g]
      simp [Finset.mem_range, hq]
    · have : ∀ d, (if 1 ≤ x / m ∧ d = x / m - 1 then g d else 0) = 0 := by
        intro d
        rw [if_neg (by tauto)]
      rw [Finset.sum_congr rfl (fun d _ => this d), Finset.sum_const_zero,
        if_neg (by tauto)]

/-- Helper: decomposition of a mosaic coordinate below (n+1)m into its
covering-tile quotient and remainder. -/
theorem mosaic_coord_decomp (m x : ℕ) (hm : 1 ≤ m) :
    m * (x / m) ≤ x ∧ x < m * (x / m) + m := by
  constructor
  · rw [mul_comm]
    exact Nat.div_mul_le_self x m
  · conv_lhs => rw [← Nat.div_add_mod x m]
    exact Nat.add_lt_add_left (Nat.mod_lt x hm) _

/-- Helper: the corrected one-dimensional overlap-add is the constant
linPeak across the whole mosaic axis. -/
theorem linCorrSum_const (m n x : ℕ) (hm : 1 ≤ m) (hn : 1 ≤ n) (hx : x < (n + 1) * m) :
    linCorrSum m n x = linPeak m := by
  have h0 : 0 < m := hm
  have hkn : x / m ≤ n := by
    have h := (Nat.div_lt_iff_lt_mul h0).mpr hx
    omega
  obtain ⟨hq1, hq2⟩ := mosaic_coord_decomp m x hm
  unfold linCorrSum
  rw [sum_covers_extract m n x hm]
  obtain ⟨k, hk⟩ : ∃ k, x / m = k := ⟨_, rfl⟩
  rw [hk] at hq1 hq2 hkn ⊢
  obtain ⟨p, hp⟩ : ∃ p, m * k = p := ⟨_, rfl⟩
  rw [hp] at hq1 hq2
  rcases Nat.eq_zero_or_pos k with rfl | hkpos
  · -- leftmost band: only tile 0 covers, and its left correction fires
    have hxm : x < m := by
      have : p = 0 := by rw [← hp]; ring
      omega
    rw [if_pos (by omega), if_neg (by omega)]
    unfold linCorr
    rw [Nat.mul_zero, Nat.sub_zero, if_pos ⟨rfl, hxm⟩, if_neg (by
      rintro ⟨h1, h2⟩
      omega)]
    rw [lin_add m x hm hxm]
    ring
  rcases Nat.lt_or_ge k n with hklt | hkn'
  · -- middle bands: tiles k-1 and k cover; no corrections fire
    obtain ⟨k', rfl⟩ : ∃ k', k = k' + 1 := ⟨k - 1, by omega⟩
    have hp' : m * k' + m = p := by rw [← hp]; ring
    obtain ⟨r, hr, hxr⟩ : ∃ r, r < m ∧ x = p + r := ⟨x - p, by omega, by omega⟩
    rw [if_pos hklt, if_pos (by omega)]
    have e1 : x - m * (k' + 1) = r := by omega
    have e2 : k' + 1 - 1 = k' := by omega
    have e3 : x - m * k' = r + m := by omega
    rw [e1, e2, e3]
    unfold linCorr
    rw [if_neg (by rintro ⟨h1, -⟩; omega), if_neg (by rintro ⟨-, h2⟩; omega),
      if_neg (by rintro ⟨-, h2⟩; omega), if_neg (by rintro ⟨h1, -⟩; omega)]
    linarith [lin_add m r hm hr]
  · -- rightmost band: only tile n-1 covers, and its right correction fires
    have hkeq : k = n := by omega
    subst hkeq
    obtain ⟨k', rfl⟩ : ∃ k', k = k' + 1 := ⟨k - 1, by omega⟩
    have hp' : m * k' + m = p := by rw [← hp]; ring
    obtain ⟨t, htm, hxt⟩ : ∃ t, t < m ∧ x = p + t := ⟨x - p, by omega, by omega⟩
    rw [if_neg (by omega), if_pos (by omega)]
    have e1 : k' + 1 - 1 = k' := by omega
    have e2 : x - m * k' = t + m := by omega
    rw [e1, e2]
    unfold linCorr
    rw [if_neg (by rintro ⟨-, h2⟩; omega), if_pos ⟨by omega, by omega⟩,
      Nat.add_sub_cancel]
    linarith [lin_add m t hm htm]

/-- Helper: the raw one-dimensional overlap-add is linPeak on the
middle bands (at least one full half-tile from either end). -/
theorem linSum_middle (m n x : ℕ) (hm : 1 ≤ m) (hn : 1 ≤ n)
    (h1 : m ≤ x) (h2 : x < n * m) : linSum m n x = linPeak m := by
  have h0 : 0 < m := hm
  have hk1 : 1 ≤ x / m := (Nat.le_div_iff_mul_le h0).mpr (by omega)
  have hkn : x / m < n := (Nat.div_lt_iff_lt_mul h0).mpr h2
  obtain ⟨hq1, hq2⟩ := mosaic_coord_decomp m x hm
  unfold linSum
  rw [sum_covers_extract m n x hm]
  obtain ⟨k, hk⟩ : ∃ k, x / m = k := ⟨_, rfl⟩
  rw [hk] at hq1 hq2 hk1 hkn ⊢
  obtain ⟨k', rfl⟩ : ∃ k', k = k' + 1 := ⟨k - 1, by omega⟩
  obtain ⟨p, hp⟩ : ∃ p, m * (k' + 1) = p := ⟨_, rfl⟩
  rw [hp] at hq1 hq2
  have hp' : m * k' + m = p := by rw [← hp]; ring
  obtain ⟨r, hr, hxr⟩ : ∃ r, r < m ∧ x = p + r := ⟨x - p, by omega, by omega⟩
  rw [if_pos hkn, if_pos (by omega)]
  have e1 : x - m * (k' + 1) = r := by omega
  have e2 : k' + 1 - 1 = k' := by omega
  have e3 : x - m * k' = r + m := by omega
  rw [e1, e2, e3, lin_add m r hm hr]

/-- Helper: a conditional double sum of separable terms factors into
the product of two conditional sums. -/
theorem sum_ite_prod (n₁ n₂ : ℕ) (P Q : ℕ → Prop) [DecidablePred P] [DecidablePred Q]
    (f g : ℕ → ℚ) :
    (∑ a ∈ Finset.range n₁, ∑ b ∈ Finset.range n₂, if P a ∧ Q b then f a * g b else 0) =
      (∑ a ∈ Finset.range n₁, if P a then f a else 0) *
        (∑ b ∈ Finset.range n₂, if Q b then g b else 0) := by
  rw [Finset.sum_mul]
  refine Finset.sum_congr rfl ?_
  intro a _
  rw [Finset.mul_sum]
  refine Finset.sum_congr rfl ?_
  intro b _
  by_cases hp : P a
  · by_cases hq : Q b
    · rw [if_pos ⟨hp, hq⟩, if_pos hp, if_pos hq]
    · rw [if_neg (by tauto), if_pos hp, if_neg hq, mul_zero]
  · by_cases hq : Q b
    · rw [if_neg (by tauto), if_neg hp, if_pos hq, zero_mul]
    · rw [if_neg (by tauto), if_neg hp, if_neg hq, zero_mul]

/-- Helper: arithmetic of the last tile offset. -/
theorem pred_mul (m n : ℕ) (hn : 1 ≤ n) : m * (n - 1) + m = n * m := by
  obtain ⟨k, rfl⟩ : ∃ k, n = k + 1 := ⟨n - 1, by omega⟩
  show m * k + m = (k + 1) * m
  ring

/-- Helper: for a mosaic coordinate below m only tile 0 covers. -/
theorem covers_low_iff (m x : ℕ) (hm : 1 ≤ m) (hx : x < m) (d : ℕ) :
    covers m d x ↔ d = 0 := by
  constructor
  · rintro ⟨h1, -⟩
    by_contra hd
    have h2 : m * 1 ≤ m * d := Nat.mul_le_mul_left m (by omega)
    omega
  · rintro rfl
    exact ⟨by omega, by omega⟩

/-- Helper: for a mosaic coordinate in the last half-tile band only
tile n-1 covers. -/
theorem covers_high_iff (m n x : ℕ) (hm : 1 ≤ m) (hn : 1 ≤ n)
    (hx1 : n * m ≤ x) (hx2 : x < (n + 1) * m) (d : ℕ) (hd : d < n) :
    covers m d x ↔ d = n - 1 := by
  have e1 : m * (n - 1) + m = n * m := pred_mul m n hn
  have e2 : (n + 1) * m = n * m + m := by ring
  constructor
  · rintro ⟨-, h2⟩
    by_contra hne
    have hle : d + 1 ≤ n - 1 := by omega
    have h3 : m * (d + 1) ≤ m * (n - 1) := Nat.mul_le_mul_left m hle
    have e3 : m * (d + 1) = m * d + m := by ring
    omega
  · rintro rfl
    exact ⟨by omega, by omega⟩

/-- Helper: a covering tile whose local index lies in a corner band
places the mosaic coordinate in the first or last half-tile band. -/
theorem cornerBand_position (m n d x : ℕ) (hm : 1 ≤ m) (hn : 1 ≤ n) (hd : d < n)
    (hcov : covers m d x) (hcb : cornerBand m n d (x - m * d)) :
    x < m ∨ n * m ≤ x := by
  have e1 : m * (n - 1) + m = n * m := pred_mul m n hn
  obtain ⟨h1, h2⟩ := hcov
  rcases hcb with ⟨rfl, hi⟩ | ⟨hdn, hi⟩
  · left
    omega
  · right
    subst hdn
    omega

/-- Helper: when x and y admit unique covering tiles a and b, the
mosaic sum is the single filter value of tile (a, b). -/
theorem mosaicSum_single (m n x y a b : ℕ) (ha : a < n) (hb : b < n)
    (hax : ∀ d, d < n → (covers m d x ↔ d = a)) (hby : ∀ d, d < n → (covers m d y ↔ d = b)) :
    mosaicSum m n x y = filter_2D m n a b (x - m * a) (y - m * b) := by
  unfold mosaicSum
  rw [Finset.sum_eq_single a ?_ ?_]
  · rw [Finset.sum_eq_single b ?_ ?_]
    · rw [if_pos ⟨(hax a ha).mpr rfl, (hby b hb).mpr rfl⟩]
    · intro d hd hne
      rw [if_neg (by rintro ⟨-, hcv⟩; exact hne ((hby d (Finset.mem_range.mp hd)).mp hcv))]
    · intro hb'
      exact absurd (Finset.mem_range.mpr hb) hb'
  · intro dX hdX hne
    refine Finset.sum_eq_zero ?_
    intro dY _
    rw [if_neg (by rintro ⟨hcv, -⟩; exact hne ((hax dX (Finset.mem_range.mp hdX)).mp hcv))]
  · intro ha'
    exact absurd (Finset.mem_range.mpr ha) ha'

/-- Helper: away from the four outer corner squares the mosaic sum
factors through the one-dimensional overlap-adds. -/
theorem mosaicSum_noncorner (m n x y : ℕ)
    (hnc : ∀ dX dY, dX < n → dY < n → covers m dX x → covers m dY y →
      ¬(cornerBand m n dX (x - m * dX) ∧ cornerBand m n dY (y - m * dY))) :
    mosaicSum m n x y =
      linCorrSum m n x * linSum m n y + linSum m n x * linCorrSum m n y -
        linSum m n x * linSum m n y := by
  unfold mosaicSum
  have step1 : ∀ dX ∈ Finset.range n,
      (∑ dY ∈ Finset.range n, if covers m dX x ∧ covers m dY y then
        filter_2D m n dX dY (x - m * dX) (y - m * dY) else 0) =
      (∑ dY ∈ Finset.range n, if covers m dX x ∧ covers m dY y then
        filter_2D_base m n dX dY (x - m * dX) (y - m * dY) else 0) := by
    intro dX hdX
    refine Finset.sum_congr rfl ?_
    intro dY hdY
    by_cases hC : covers m dX x ∧ covers m dY y
    · rw [if_pos hC, if_pos hC]
      unfold filter_2D
      rw [if_neg (hnc dX dY (Finset.mem_range.mp hdX) (Finset.mem_range.mp hdY) hC.1 hC.2)]
    · rw [if_neg hC, if_neg hC]
  rw [Finset.sum_congr rfl step1]
  have step2 : ∀ dX ∈ Finset.range n,
      (∑ dY ∈ Finset.range n, if covers m dX x ∧ covers m dY y then
        filter_2D_base m n dX dY (x - m * dX) (y - m * dY) else 0) =
      ((∑ dY ∈ Finset.range n, if covers m dX x ∧ covers m dY y then
          linCorr m n dX (x - m * dX) * lin (2 * m) (y - m * dY) else 0) +
        (∑ dY ∈ Finset.range n, if covers m dX x ∧ covers m dY y then
          lin (2 * m) (x - m * dX) * linCorr m n dY (y - m * dY) else 0) -
        (∑ dY ∈ Finset.range n, if covers m dX x ∧ covers m dY y then
          lin (2 * m) (x - m * dX) * lin (2 * m) (y - m * dY) else 0)) := by
    intro dX _
    rw [← Finset.sum_add_distrib, ← Finset.sum_sub_distrib]
    refine Finset.sum_congr rfl ?_
    intro dY _
    by_cases hC : covers m dX x ∧ covers m dY y
    · rw [if_pos hC, if_pos hC, if_pos hC, if_pos hC]
      exact filter_2D_base_eq m n dX dY (x - m * dX) (y - m * dY)
    · rw [if_neg hC, if_neg hC, if_neg hC, if_neg hC]
      ring
  rw [Finset.sum_congr rfl step2, Finset.sum_sub_distrib, Finset.sum_add_distrib]
  rw [sum_ite_prod n n (fun d => covers m d x) (fun d => covers m d y)
      (fun dX => linCorr m n dX (x - m * dX)) (fun dY => lin (2 * m) (y - m * dY)),
    sum_ite_prod n n (fun d => covers m d x) (fun d => covers m d y)
      (fun dX => lin (2 * m) (x - m * dX)) (fun dY => linCorr m n dY (y - m * dY)),
    sum_ite_prod n n (fun d => covers m d x) (fun d => covers m d y)
      (fun dX => lin (2 * m) (x - m * dX)) (fun dY => lin (2 * m) (y - m * dY))]
  rfl

/-- C3.  For every even filter width 2m (the only widths the numpy
construction accepts) and every nSubDirs n between 1 and 7, placing the
nSubDirs^2 blending filters filter_2D at their mosaic offsets of half a
tile width per index and summing elementwise yields the single-tile
peak weight tentMax at every pixel of the (n+1)m-wide mosaic - with no
exception band at all. -/
theorem filter_partition_of_unity (m n x y : ℕ) (hm : 1 ≤ m) (hn1 : 1 ≤ n) (hn7 : n ≤ 7)
    (hx : x < (n + 1) * m) (hy : y < (n + 1) * m) :
    mosaicSum m n x y = tentMax m := by
  have e1 : m * (n - 1) + m = n * m := pred_mul m n hn1
  have e2 : (n + 1) * m = n * m + m := by ring
  by_cases hcorner : (x < m ∨ n * m ≤ x) ∧ (y < m ∨ n * m ≤ y)
  · obtain ⟨hcx, hcy⟩ := hcorner
    rcases hcx with hx1 | hx1 <;> rcases hcy with hy1 | hy1
    · rw [mosaicSum_single m n x y 0 0 (by omega) (by omega)
        (fun d _ => covers_low_iff m x hm hx1 d) (fun d _ => covers_low_iff m y hm hy1 d)]
      unfold filter_2D
      rw [if_pos ⟨Or.inl ⟨rfl, by omega⟩, Or.inl ⟨rfl, by omega⟩⟩]
    · rw [mosaicSum_single m n x y 0 (n - 1) (by omega) (by omega)
        (fun d _ => covers_low_iff m x hm hx1 d)
        (fun d hd => covers_high_iff m n y hm hn1 hy1 hy d hd)]
      unfold filter_2D
      rw [if_pos ⟨Or.inl ⟨rfl, by omega⟩, Or.inr ⟨rfl, by omega⟩⟩]
    · rw [mosaicSum_single m n x y (n - 1) 0 (by omega) (by omega)
        (fun d hd => covers_high_iff m n x hm hn1 hx1 hx d hd)
        (fun d _ => covers_low_iff m y hm hy1 d)]
      unfold filter_2D
      rw [if_pos ⟨Or.inr ⟨rfl, by omega⟩, Or.inl ⟨rfl, by omega⟩⟩]
    · rw [mosaicSum_single m n x y (n - 1) (n - 1) (by omega) (by omega)
        (fun d hd => covers_high_iff m n x hm hn1 hx1 hx d hd)
        (fun d hd => covers_high_iff m n y hm hn1 hy1 hy d hd)]
      unfold filter_2D
      rw [if_pos ⟨Or.inr ⟨rfl, by omega⟩, Or.inr ⟨rfl, by omega⟩⟩]
  · have hmid : (m ≤ x ∧ x < n * m) ∨ (m ≤ y ∧ y < n * m) := by
      rcases not_and_or.mp hcorner with h | h
      · left
        omega
      · right
        omega
    have hnc : ∀ dX dY, dX < n → dY < n → covers m dX x → covers m dY y →
        ¬(cornerBand m n dX (x - m * dX) ∧ cornerBand m n dY (y - m * dY)) := by
      rintro dX dY hdX hdY hcovX hcovY ⟨hcb1, hcb2⟩
      rcases hmid with ⟨hx1, hx2⟩ | ⟨hy1, hy2⟩
      · have := cornerBand_position m n dX x hm hn1 hdX hcovX hcb1
        omega
      · have := cornerBand_position m n dY y hm hn1 hdY hcovY hcb2
        omega
    rw [mosaicSum_noncorner m n x y hnc,
      linCorrSum_const m n x hm hn1 hx, linCorrSum_const m n y hm hn1 hy]
    rcases hmid with ⟨hx1, hx2⟩ | ⟨hy1, hy2⟩
    · rw [linSum_middle m n x hm hn1 hx1 hx2]
      unfold tentMax
      ring
    · rw [linSum_middle m n y hm hn1 hy1 hy2]
      unfold tentMax
      ring

/-- Witness for C3 at m = 2 (filter width 4), n = 2 tiles per side,
interior pixel (3, 3). -/
theorem filter_partition_of_unity_witness : mosaicSum 2 2 3 3 = tentMax 2 :=
  filter_partition_of_unity 2 2 3 3 (by norm_num) (by norm_num) (by norm_num)
    (by norm_num) (by norm_num)

end OOPAO
